import Mathlib

/-!
# Verification of `easy-rsync.py`

A shallow embedding of the `easy-rsync` wrapper script in Lean 4, together
with proofs of its specified properties.

The script is a thin orchestrator around the external `rsync` binary: it
builds command lines, runs them, parses the textual output into lists of
changed paths, and writes those lists to log files.  We model the outside
world (the filesystem's directory predicate and the behaviour of the
external `rsync` process) as an abstract `World`, and every operation of
the script as a pure function returning a result (`Except Err α`, where
`Err` models the Python exceptions that abort the run) paired with the
trace of externally visible events it performed (process invocations and
file writes), in order.
-/

/-- Character-list prefix test (avoiding any dependence on `String`
internals): `isPreOf p l` is true iff `p` is an initial segment of `l`. -/
def isPreOf : List Char → List Char → Bool
  | [], _ => true
  | _ :: _, [] => false
  | a :: as, b :: bs => a = b && isPreOf as bs

/-- Index of the first occurrence of the pattern `pat` in `l`
(Python `str.index` semantics, `none` when absent). -/
def findSub (pat : List Char) : List Char → Option Nat
  | [] => if isPreOf pat [] then some 0 else none
  | c :: cs =>
    if isPreOf pat (c :: cs) then some 0
    else ( findSub pat cs).map (· + 1)

/-- `hasSub l pat` is true iff `pat` occurs as a contiguous sublist of `l`. -/
def hasSub (l pat : List Char) : Bool :=
  ( findSub pat l).isSome

/-- Embeds `_strip_action_prefix`:

    def _strip_action_prefix(s: str) -> str:
        return s[s.index(') ') + 2:]

`str.index` raises `ValueError` when the pattern is absent, which we model
by returning `none`. -/
def strip_action_code (s : String) : Option String :=
  ( findSub [')', ' '] s.data).map (fun i => String.mk (s.data.drop (i + 2)))

/-- Splits a character list at every newline character. -/
def splitOnNl : List Char → List (List Char)
  | [] => [[]]
  | c :: cs =>
    if c = '\n' then [] :: splitOnNl cs
    else
      match splitOnNl cs with
      | [] => [[c]]
      | l :: ls => (c :: l) :: ls

/-- Python `str.splitlines` restricted to `\n` separators (the only
separator that occurs in rsync's itemized output): splits on newline
characters, with a trailing newline not producing a final empty entry,
and the empty string producing the empty list. -/
def splitlines (s : String) : List String :=
  let ps := splitOnNl s.data
  (if ps.getLast? = some [] then ps.dropLast else ps).map String.mk

/-- The errors that abort a run of the script: `_log_and_abort` raising
`ValueError` on a path that is not a directory, `subprocess.run(...,
check=True)` raising `CalledProcessError` on a non-zero rsync exit, and
`str.index` raising `ValueError` on a line without the `") "` delimiter. -/
inductive Err where
  | notADirectory (p : String)
  | rsyncFailed
  | valueError
deriving DecidableEq, Repr

/-- The externally visible events of a run, in order: full rsync command
lines handed to `subprocess.run`, and log-file writes (`open(logfile, 'w')`
followed by a single `write`, i.e. a full overwrite). -/
inductive Event where
  | rsyncCall (cmd : List String)
  | fileWrite (path : String) (content : String)
deriving DecidableEq, Repr

/-- The outside world the script interacts with: which paths are
directories, and what the external `rsync` binary does for a given full
command line (`.ok stdout` for a zero exit with that captured standard
output, `.error ()` for a non-zero exit). -/
structure World where
  isDir : String → Bool
  rsyncResult : List String → Except Unit String

/-- The result of a step of the script: the value it returns (or the
exception that aborted it) together with the ordered trace of external
events it performed before returning. -/
def StepRes (α : Type) := Except Err α × List Event

/-- `_RSYNC_FLAGS`, the fixed flag tuple prepended to every invocation. -/
def RSYNC_FLAGS : List String := ["-rptgo", "-i", "--out-format=(%i) %n"]

/-- Embeds `_sanitize_path` (minus the directory check, which is a world
query handled in `runRsync`): `str(p) + '/'`. -/
def sanitize_path (p : String) : String := p ++ "/"

/-- The full rsync command line built by `_run_rsync`:
`['rsync', *_RSYNC_FLAGS]`, the extra args, `--dry-run` when requested,
then the sanitized source and destination paths. -/
def mkCmd (args : List String) (dryRun : Bool) (src dest : String) : List String :=
  ["rsync"] ++ RSYNC_FLAGS ++ args ++ (if dryRun then ["--dry-run"] else [])
    ++ [ sanitize_path src, sanitize_path dest]

/-- Embeds `_run_rsync`: sanitizes `src` then `dest` (each aborting with
`ValueError` when not a directory, before any process is started), runs
the process synchronously, and with `check=True` a non-zero exit raises
`CalledProcessError`; on success the captured stdout is returned. -/
def runRsync (w : World) (args : List String) (src dest : String)
    (dryRun : Bool) : StepRes String :=
  if w.isDir src = false then (.error (.notADirectory src), [])
  else if w.isDir dest = false then (.error (.notADirectory dest), [])
  else
    let cmd := mkCmd args dryRun src dest
    match w.rsyncResult cmd with
    | .ok out => (.ok out, [.rsyncCall cmd])
    | .error _ => (.error .rsyncFailed, [.rsyncCall cmd])

/-- Embeds `_sync_new_files`: `_run_rsync(['--ignore-existing'], ...)`,
result discarded. -/
def sync_new_files (w : World) (src dest : String) (dryRun : Bool) :
    StepRes Unit :=
  let r := runRsync w ["--ignore-existing"] src dest dryRun
  (r.1.map (fun _ => ()), r.2)

/-- Embeds `_update_all_files`: `_run_rsync([], ...)`, result discarded. -/
def update_all_files (w : World) (src dest : String) (dryRun : Bool) :
    StepRes Unit :=
  let r := runRsync w [] src dest dryRun
  (r.1.map (fun _ => ()), r.2)

/-- The log path chosen for directory `d`:
`d / name if not override else override`. -/
def logPath (d : String) (name : String) (override : Option String) : String :=
  match override with
  | none => d ++ "/" ++ name
  | some f => f

/-- Embeds `_check_modified`: a dry-run rsync with no extra flags, whose
raw stdout is written to the modified-log path of the source directory and
then of the destination directory, returning `stdout.splitlines()`. -/
def check_modified (w : World) (src dest : String)
    (modified_file : Option String) : StepRes (List String) :=
  match runRsync w [] src dest true with
  | (.error e, ev) => (.error e, ev)
  | (.ok conflicts, ev) =>
    (.ok (splitlines conflicts),
     ev ++ [.fileWrite (logPath src "easy-rsync_modified.txt" modified_file) conflicts,
            .fileWrite (logPath dest "easy-rsync_modified.txt" modified_file) conflicts])

/-- The dict comprehension `{_strip_action_prefix(m): True for m in
modified}` of `_verify_integrity`, as the left-to-right list of stripped
keys; `none` when some line has no delimiter (the `ValueError` raised at
the first such line). -/
def stripAll : List String → Option (List String)
  | [] => some []
  | m :: ms =>
    match strip_action_code m with
    | none => none
    | some p =>
      match stripAll ms with
      | none => none
      | some ps => some (p :: ps)

/-- The list comprehension `[c for c in conflicts if
_strip_action_prefix(c) not in modmap]` of `_verify_integrity`: keeps the
lines whose stripped path is not among the stripped modified paths, and
fails (with `ValueError`) at the first line without a delimiter. -/
def filterStripped (stripped : List String) : List String → Option (List String)
  | [] => some []
  | c :: cs =>
    match strip_action_code c with
    | none => none
    | some p =>
      match filterStripped stripped cs with
      | none => none
      | some rest => some (if p ∈ stripped then rest else c :: rest)

/-- The conflict-classification core of `_verify_integrity`: builds the
stripped-modified key set, then filters the checksum-diff lines by it. -/
def conflictingItems (modified conflicts : List String) : Option (List String) :=
  match stripAll modified with
  | none => none
  | some stripped => filterStripped stripped conflicts

/-- Embeds `_verify_integrity`: a dry-run rsync with extra flag `-c`,
whose stdout lines are filtered against the stripped modified list; the
surviving lines, joined with newlines, are written to the conflict-log
path of the source directory and then of the destination directory. -/
def verify_integrity (w : World) (src dest : String) (modified : List String)
    (conflict_file : Option String) : StepRes Unit :=
  match runRsync w ["-c"] src dest true with
  | (.error e, ev) => (.error e, ev)
  | (.ok out, ev) =>
    match conflictingItems modified (splitlines out) with
    | none => (.error .valueError, ev)
    | some items =>
      let content := String.intercalate "\n" items
      (.ok (),
       ev ++ [.fileWrite (logPath src "easy-rsync_conflicts.txt" conflict_file) content,
              .fileWrite (logPath dest "easy-rsync_conflicts.txt" conflict_file) content])

/-- Embeds `main` (the `logfile` logging handler has no effect on the
modelled state and is omitted): when `verify_integrity` is requested the
run is `_check_modified` followed by `_verify_integrity` on its result;
otherwise `_update_all_files` (force) or `_sync_new_files` (no force)
followed by `_check_modified`;  on reaching the end it returns 0. -/
def EasyRsync.main (w : World) (src dest : String) (dry_run force : Bool)
    (conflict_file modified_file : Option String) (verify : Bool) :
    StepRes Int :=
  if verify then
    match check_modified w src dest modified_file with
    | (.error e, ev) => (.error e, ev)
    | (.ok modified, ev1) =>
      match verify_integrity w src dest modified conflict_file with
      | (.error e, ev2) => (.error e, ev1 ++ ev2)
      | (.ok _, ev2) => (.ok 0, ev1 ++ ev2)
  else
    match (if force then update_all_files w src dest dry_run
           else sync_new_files w src dest dry_run) with
    | (.error e, ev) => (.error e, ev)
    | (.ok _, ev1) =>
      match check_modified w src dest modified_file with
      | (.error e, ev2) => (.error e, ev1 ++ ev2)
      | (.ok _, ev2) => (.ok 0, ev1 ++ ev2)

/-- The rsync command lines of a trace, in order. -/
def rsyncCalls : List Event → List (List String)
  | [] => []
  | .rsyncCall c :: es => c :: rsyncCalls es
  | .fileWrite _ _ :: es => rsyncCalls es

/-- The `(path, content)` pairs of the file writes of a trace, in order. -/
def writeEvents : List Event → List (String × String)
  | [] => []
  | .rsyncCall _ :: es => writeEvents es
  | .fileWrite p c :: es => (p, c) :: writeEvents es

/-- A concrete world in which every path is a directory and every rsync
invocation exits 0 reporting a single changed file `a.txt`. -/
def wGood : World where
  isDir := fun _ => true
  rsyncResult := fun _ => .ok "(x) a.txt\n"

/-- A concrete world in which every path is a directory and every rsync
invocation exits non-zero. -/
def wFail : World where
  isDir := fun _ => true
  rsyncResult := fun _ => .error ()

/-- A concrete world with no directories at all. -/
def wNoDir : World where
  isDir := fun _ => false
  rsyncResult := fun _ => .ok ""

/-! ## Lemmas about the substring search -/

/-- If the pattern occurs at position `i` and at no earlier position, then
`findSub` returns `i`. -/
theorem findSub_eq_of_first (pat : List Char) :
    ∀ (l : List Char) (i : Nat),
      isPreOf pat (l.drop i) = true →
      (∀ j, j < i → isPreOf pat (l.drop j) = false) →
      findSub pat l = some i := by
  intro l
  induction l with
  | nil =>
    intro i h1 h2
    match i with
    | 0 => simp only [List.drop_nil] at h1; simp [ findSub, h1]
    | i' + 1 =>
      have h0 := h2 0 (Nat.succ_pos i')
      simp only [List.drop_nil] at h0 h1
      rw [h1] at h0
      exact absurd h0 (by simp)
  | cons c cs ih =>
    intro i h1 h2
    match i with
    | 0 =>
      simp only [List.drop] at h1
      simp [ findSub, h1]
    | i' + 1 =>
      have h0 := h2 0 (Nat.succ_pos i')
      simp only [List.drop] at h0
      rw [ findSub, if_neg (by simp [h0])]
      have hrec : findSub pat cs = some i' := by
        apply ih
        · simpa using h1
        · intro j hj
          have := h2 (j + 1) (by omega)
          simpa using this
      rw [hrec]
      rfl

/-- If `findSub` finds nothing, a nonempty pattern occurs nowhere. -/
theorem isPreOf_eq_false_of_findSub_none (x : Char) (xs : List Char) :
    ∀ (l : List Char), findSub (x :: xs) l = none →
      ∀ j, isPreOf (x :: xs) (l.drop j) = false := by
  intro l
  induction l with
  | nil => intro _ j; simp [isPreOf]
  | cons c cs ih =>
    intro h j
    simp only [ findSub] at h
    by_cases hp : isPreOf (x :: xs) (c :: cs) = true
    · rw [if_pos hp] at h; exact absurd h (by simp)
    · rw [if_neg hp] at h
      have hnone : findSub (x :: xs) cs = none := by
        cases hfs : findSub (x :: xs) cs with
        | none => rfl
        | some k => rw [hfs] at h; exact absurd h (by simp)
      match j with
      | 0 => simpa using Bool.eq_false_iff.mpr hp
      | j' + 1 => simpa using ih hnone j'

/-- If the pattern occurs nowhere, `findSub` finds nothing. -/
theorem findSub_none_of_no_occurrence (pat : List Char) :
    ∀ (l : List Char), (∀ j, isPreOf pat (l.drop j) = false) →
      findSub pat l = none := by
  intro l
  induction l with
  | nil =>
    intro h
    have h0 := h 0
    simp only [List.drop_nil] at h0
    simp [ findSub, h0]
  | cons c cs ih =>
    intro h
    have h0 := h 0
    simp only [List.drop] at h0
    rw [ findSub, if_neg (by simp [h0])]
    have : findSub pat cs = none := by
      apply ih
      intro j
      have := h (j + 1)
      simpa using this
    rw [this]
    rfl

/-- Appending the delimiter pattern `") "` after a list that contains no
`')'` character puts the first occurrence exactly at the junction. -/
theorem findSub_delim_append (r : List Char) :
    ∀ (l : List Char), (∀ ch ∈ l, ch ≠ ')') →
      findSub [')', ' '] (l ++ [')', ' '] ++ r) = some l.length := by
  intro l
  induction l with
  | nil =>
    intro _
    simp only [List.nil_append, List.cons_append]
    rw [ findSub, if_pos (by simp [isPreOf])]
    rfl
  | cons c cs ih =>
    intro h
    have hc : c ≠ ')' := h c (List.mem_cons_self c cs)
    simp only [List.cons_append]
    rw [ findSub, if_neg]
    · rw [ih (fun ch hch => h ch (List.mem_cons_of_mem c hch))]
      rfl
    · simp only [isPreOf, Bool.and_eq_true, decide_eq_true_eq]
      intro hcontra
      exact hc hcontra.1.symm

/-- On a well-formed `"(<code>) <path>"` line whose action code contains
no `')'` character, stripping recovers exactly the path — whatever the
path contains. -/
theorem strip_full_line (code path : List Char)
    (h : ∀ ch ∈ code, ch ≠ ')') :
    strip_action_code (String.mk ('(' :: code ++ [')', ' '] ++ path)) =
      some (String.mk path) := by
  have hall : ∀ ch ∈ '(' :: code, ch ≠ ')' := by
    intro ch hch
    rcases List.mem_cons.mp hch with h1 | h2
    · rw [h1]; decide
    · exact h ch h2
  have hfind := findSub_delim_append path ('(' :: code) hall
  simp only [List.cons_append] at hfind
  rw [ strip_action_code]
  show (( findSub [')', ' '] ('(' :: (code ++ [')', ' '] ++ path))).map
    (fun i => String.mk (('(' :: (code ++ [')', ' '] ++ path)).drop (i + 2)))) = _
  have hfind' : findSub [')', ' '] ('(' :: (code ++ [')', ' '] ++ path)) =
      some ('(' :: code).length := by
    simpa using hfind
  rw [hfind']
  show some (String.mk
      (('(' :: (code ++ [')', ' '] ++ path)).drop (('(' :: code).length + 2))) =
    some (String.mk path)
  have harr : '(' :: (code ++ [')', ' '] ++ path) =
      (('(' :: code) ++ [')', ' ']) ++ path := by
    simp
  rw [harr]
  have hdrop : ((('(' :: code) ++ [')', ' ']) ++ path).drop
      (('(' :: code).length + 2) = path := by
    have hlen : (('(' :: code) ++ [')', ' ']).length = ('(' :: code).length + 2 := by
      simp
    rw [← hlen, List.drop_left]
  rw [hdrop]

/-! ## Lemmas about the conflict filter -/

/-- A line without the delimiter makes the key-set construction fail. -/
theorem stripAll_none_of_mem {modified : List String} {m : String}
    (hm : m ∈ modified) (hnone : strip_action_code m = none) :
    stripAll modified = none := by
  induction modified with
  | nil => exact absurd hm (List.not_mem_nil m)
  | cons x xs ih =>
    rcases List.mem_cons.mp hm with h | h
    · rw [stripAll, ← h, hnone]
    · rw [stripAll]
      cases hx : strip_action_code x with
      | none => rfl
      | some p => rw [ih h]

/-- When the key-set construction succeeds, every line stripped. -/
theorem stripAll_mem_some {modified sm : List String} {m : String}
    (h : stripAll modified = some sm) (hm : m ∈ modified) :
    ∃ p, strip_action_code m = some p := by
  induction modified generalizing sm with
  | nil => exact absurd hm (List.not_mem_nil m)
  | cons x xs ih =>
    rw [stripAll] at h
    cases hx : strip_action_code x with
    | none => rw [hx] at h; exact absurd h (by simp)
    | some p =>
      rw [hx] at h
      cases hxs : stripAll xs with
      | none => rw [hxs] at h; exact absurd h (by simp)
      | some ps =>
        rcases List.mem_cons.mp hm with h1 | h1
        · exact ⟨p, h1 ▸ hx⟩
        · exact ih hxs h1

/-- A line without the delimiter makes the conflict filter fail. -/
theorem filterStripped_none_of_mem (sm : List String) {conflicts : List String}
    {c : String} (hc : c ∈ conflicts) (hnone : strip_action_code c = none) :
    filterStripped sm conflicts = none := by
  induction conflicts with
  | nil => exact absurd hc (List.not_mem_nil c)
  | cons x xs ih =>
    rcases List.mem_cons.mp hc with h | h
    · rw [filterStripped, ← h, hnone]
    · rw [filterStripped]
      cases hx : strip_action_code x with
      | none => rfl
      | some p => rw [ih h]

/-- Membership in the filtered conflict list: a line is kept exactly when
it occurs among the checksum-diff lines and its stripped path is not
among the stripped modified paths. -/
theorem filterStripped_mem_iff (sm : List String) :
    ∀ (conflicts items : List String) (c p : String),
      filterStripped sm conflicts = some items →
      strip_action_code c = some p →
      (c ∈ items ↔ c ∈ conflicts ∧ p ∉ sm) := by
  intro conflicts
  induction conflicts with
  | nil =>
    intro items c p hf _
    rw [filterStripped] at hf
    obtain rfl : ([] : List String) = items := Option.some.inj hf
    simp
  | cons x xs ih =>
    intro items c p hf hp
    rw [filterStripped] at hf
    cases hx : strip_action_code x with
    | none => rw [hx] at hf; exact absurd hf (by simp)
    | some q =>
      rw [hx] at hf
      cases hxs : filterStripped sm xs with
      | none => rw [hxs] at hf; exact absurd hf (by simp)
      | some rest =>
        rw [hxs] at hf
        obtain rfl : (if q ∈ sm then rest else x :: rest) = items :=
          Option.some.inj hf
        have hih := ih rest c p hxs hp
        by_cases hq : q ∈ sm
        · rw [if_pos hq, hih]
          constructor
          · rintro ⟨h1, h2⟩
            exact ⟨List.mem_cons_of_mem x h1, h2⟩
          · rintro ⟨h1, h2⟩
            rcases List.mem_cons.mp h1 with h3 | h3
            · exfalso
              apply h2
              have : some p = some q := by rw [← hp, h3, hx]
              rw [Option.some.inj this]
              exact hq
            · exact ⟨h3, h2⟩
        · rw [if_neg hq]
          constructor
          · intro h1
            rcases List.mem_cons.mp h1 with h3 | h3
            · refine ⟨by rw [h3]; exact List.mem_cons_self x xs, ?_⟩
              have : some p = some q := by rw [← hp, h3, hx]
              rw [Option.some.inj this]
              exact hq
            · have := hih.mp h3
              exact ⟨List.mem_cons_of_mem x this.1, this.2⟩
          · rintro ⟨h1, h2⟩
            rcases List.mem_cons.mp h1 with h3 | h3
            · exact h3 ▸ List.mem_cons_self x rest
            · exact List.mem_cons_of_mem x (hih.mpr ⟨h3, h2⟩)

/-! ## Characterization of the individual steps -/

/-- A non-directory source aborts `_run_rsync` before any process runs. -/
theorem runRsync_bad_src {w : World} {src : String}
    (hs : w.isDir src = false) (args : List String) (dest : String)
    (dr : Bool) :
    runRsync w args src dest dr = (.error (.notADirectory src), []) := by
  simp [runRsync, hs]

/-- A non-directory destination aborts `_run_rsync` before any process
runs. -/
theorem runRsync_bad_dest {w : World} {src dest : String}
    (hs : w.isDir src = true) (hd : w.isDir dest = false)
    (args : List String) (dr : Bool) :
    runRsync w args src dest dr = (.error (.notADirectory dest), []) := by
  simp [runRsync, hs, hd]

/-- A zero-exit rsync run returns its stdout; the trace is that one
invocation. -/
theorem runRsync_ok {w : World} {src dest out : String} {args : List String}
    {dr : Bool} (hs : w.isDir src = true) (hd : w.isDir dest = true)
    (hr : w.rsyncResult (mkCmd args dr src dest) = .ok out) :
    runRsync w args src dest dr =
      (.ok out, [.rsyncCall (mkCmd args dr src dest)]) := by
  simp [runRsync, hs, hd, hr]

/-- A non-zero-exit rsync run aborts; the trace is that one invocation. -/
theorem runRsync_fail {w : World} {src dest : String} {args : List String}
    {dr : Bool} {u : Unit} (hs : w.isDir src = true) (hd : w.isDir dest = true)
    (hr : w.rsyncResult (mkCmd args dr src dest) = .error u) :
    runRsync w args src dest dr =
      (.error .rsyncFailed, [.rsyncCall (mkCmd args dr src dest)]) := by
  simp [runRsync, hs, hd, hr]

/-- Successful `_check_modified`: one dry-run rsync invocation and two
writes of its raw stdout, returning the split lines. -/
theorem check_modified_ok {w : World} {src dest out : String}
    (mf : Option String) (hs : w.isDir src = true) (hd : w.isDir dest = true)
    (hr : w.rsyncResult (mkCmd [] true src dest) = .ok out) :
    check_modified w src dest mf =
      (.ok (splitlines out),
       [.rsyncCall (mkCmd [] true src dest),
        .fileWrite (logPath src "easy-rsync_modified.txt" mf) out,
        .fileWrite (logPath dest "easy-rsync_modified.txt" mf) out]) := by
  rw [check_modified, runRsync_ok hs hd hr]
  rfl

/-- `_check_modified` propagates a failure of its rsync run. -/
theorem check_modified_err {w : World} {src dest : String} {e : Err}
    {ev : List Event} (mf : Option String)
    (h : runRsync w [] src dest true = (.error e, ev)) :
    check_modified w src dest mf = (.error e, ev) := by
  rw [check_modified, h]

/-- Successful `_verify_integrity`: one dry-run checksum rsync invocation
and two writes of the joined surviving conflict lines. -/
theorem verify_integrity_ok {w : World} {src dest out : String}
    {modified items : List String} (cf : Option String)
    (hs : w.isDir src = true) (hd : w.isDir dest = true)
    (hr : w.rsyncResult (mkCmd ["-c"] true src dest) = .ok out)
    (hci : conflictingItems modified (splitlines out) = some items) :
    verify_integrity w src dest modified cf =
      (.ok (),
       [.rsyncCall (mkCmd ["-c"] true src dest),
        .fileWrite (logPath src "easy-rsync_conflicts.txt" cf)
          (String.intercalate "\n" items),
        .fileWrite (logPath dest "easy-rsync_conflicts.txt" cf)
          (String.intercalate "\n" items)]) := by
  rw [verify_integrity, runRsync_ok hs hd hr]
  show (match conflictingItems modified (splitlines out) with
    | none => ((.error .valueError : Except Err Unit),
        [Event.rsyncCall (mkCmd ["-c"] true src dest)])
    | some items =>
      (.ok (),
       [Event.rsyncCall (mkCmd ["-c"] true src dest),
        .fileWrite (logPath src "easy-rsync_conflicts.txt" cf)
          (String.intercalate "\n" items),
        .fileWrite (logPath dest "easy-rsync_conflicts.txt" cf)
          (String.intercalate "\n" items)])) = _
  rw [hci]

/-- `_verify_integrity` raises `ValueError` when a line of either input
list has no delimiter: nothing is written. -/
theorem verify_integrity_badlines {w : World} {src dest out : String}
    {modified : List String} (cf : Option String)
    (hs : w.isDir src = true) (hd : w.isDir dest = true)
    (hr : w.rsyncResult (mkCmd ["-c"] true src dest) = .ok out)
    (hci : conflictingItems modified (splitlines out) = none) :
    verify_integrity w src dest modified cf =
      (.error .valueError, [.rsyncCall (mkCmd ["-c"] true src dest)]) := by
  rw [verify_integrity, runRsync_ok hs hd hr]
  show (match conflictingItems modified (splitlines out) with
    | none => ((.error .valueError : Except Err Unit),
        [Event.rsyncCall (mkCmd ["-c"] true src dest)])
    | some items =>
      (.ok (),
       [Event.rsyncCall (mkCmd ["-c"] true src dest),
        .fileWrite (logPath src "easy-rsync_conflicts.txt" cf)
          (String.intercalate "\n" items),
        .fileWrite (logPath dest "easy-rsync_conflicts.txt" cf)
          (String.intercalate "\n" items)])) = _
  rw [hci]

/-- `_verify_integrity` propagates a failure of its rsync run. -/
theorem verify_integrity_err {w : World} {src dest : String} {e : Err}
    {ev : List Event} {modified : List String} (cf : Option String)
    (h : runRsync w ["-c"] src dest true = (.error e, ev)) :
    verify_integrity w src dest modified cf = (.error e, ev) := by
  rw [verify_integrity, h]

/-! ## Characterization of `main` -/

/-- With a non-directory source, `main` aborts with an empty trace,
whatever the mode. -/
theorem main_bad_src {w : World} {src : String} (hs : w.isDir src = false)
    (dest : String) (dr force : Bool) (cf mf : Option String)
    (verify : Bool) :
    EasyRsync.main w src dest dr force cf mf verify =
      (.error (.notADirectory src), []) := by
  cases verify <;> cases force <;>
    simp [EasyRsync.main, check_modified, sync_new_files, update_all_files,
      runRsync, hs, Except.map]

/-- With a directory source but non-directory destination, `main` aborts
with an empty trace, whatever the mode. -/
theorem main_bad_dest {w : World} {src dest : String}
    (hs : w.isDir src = true) (hd : w.isDir dest = false)
    (dr force : Bool) (cf mf : Option String) (verify : Bool) :
    EasyRsync.main w src dest dr force cf mf verify =
      (.error (.notADirectory dest), []) := by
  cases verify <;> cases force <;>
    simp [EasyRsync.main, check_modified, sync_new_files, update_all_files,
      runRsync, hs, hd, Except.map]

/-- The fully successful verify-integrity run: modification check, then
checksum verification, six events in order, returning 0. -/
theorem main_verify_ok {w : World} {src dest out1 out2 : String}
    {items : List String} (dr force : Bool) (cf mf : Option String)
    (hs : w.isDir src = true) (hd : w.isDir dest = true)
    (h1 : w.rsyncResult (mkCmd [] true src dest) = .ok out1)
    (h2 : w.rsyncResult (mkCmd ["-c"] true src dest) = .ok out2)
    (hci : conflictingItems (splitlines out1) (splitlines out2) = some items) :
    EasyRsync.main w src dest dr force cf mf true =
      (.ok 0,
       [.rsyncCall (mkCmd [] true src dest),
        .fileWrite (logPath src "easy-rsync_modified.txt" mf) out1,
        .fileWrite (logPath dest "easy-rsync_modified.txt" mf) out1,
        .rsyncCall (mkCmd ["-c"] true src dest),
        .fileWrite (logPath src "easy-rsync_conflicts.txt" cf)
          (String.intercalate "\n" items),
        .fileWrite (logPath dest "easy-rsync_conflicts.txt" cf)
          (String.intercalate "\n" items)]) := by
  rw [EasyRsync.main, if_pos rfl, check_modified_ok mf hs hd h1]
  simp [verify_integrity_ok cf hs hd h2 hci]

/-- The fully successful propagation run: one propagation invocation
(`--ignore-existing` unless forced, honoring the dry-run flag), then the
modification check, four events in order, returning 0. -/
theorem main_noverify_ok {w : World} {src dest outP out1 : String}
    (dr force : Bool) (cf mf : Option String)
    (hs : w.isDir src = true) (hd : w.isDir dest = true)
    (hP : w.rsyncResult
      (mkCmd (if force then [] else ["--ignore-existing"]) dr src dest) =
      .ok outP)
    (h1 : w.rsyncResult (mkCmd [] true src dest) = .ok out1) :
    EasyRsync.main w src dest dr force cf mf false =
      (.ok 0,
       [.rsyncCall (mkCmd (if force then [] else ["--ignore-existing"])
          dr src dest),
        .rsyncCall (mkCmd [] true src dest),
        .fileWrite (logPath src "easy-rsync_modified.txt" mf) out1,
        .fileWrite (logPath dest "easy-rsync_modified.txt" mf) out1]) := by
  cases force <;>
    simp only [Bool.false_eq_true, if_false, if_true] at hP ⊢ <;>
    rw [EasyRsync.main] <;>
    simp [sync_new_files, update_all_files, runRsync_ok hs hd hP,
      check_modified_ok mf hs hd h1, Except.map]


/-- A failing first rsync run aborts the verify-integrity mode at once:
the trace is that single invocation. -/
theorem main_verify_fail1 {w : World} {src dest : String} {u : Unit}
    (dr force : Bool) (cf mf : Option String)
    (hs : w.isDir src = true) (hd : w.isDir dest = true)
    (h1 : w.rsyncResult (mkCmd [] true src dest) = .error u) :
    EasyRsync.main w src dest dr force cf mf true =
      (.error .rsyncFailed, [.rsyncCall (mkCmd [] true src dest)]) := by
  rw [EasyRsync.main, if_pos rfl,
    check_modified_err mf ( runRsync_fail hs hd h1)]

/-- A failing checksum rsync run aborts the verify-integrity mode after
the modification check: the trace ends at the failed invocation. -/
theorem main_verify_fail2 {w : World} {src dest out1 : String} {u : Unit}
    (dr force : Bool) (cf mf : Option String)
    (hs : w.isDir src = true) (hd : w.isDir dest = true)
    (h1 : w.rsyncResult (mkCmd [] true src dest) = .ok out1)
    (h2 : w.rsyncResult (mkCmd ["-c"] true src dest) = .error u) :
    EasyRsync.main w src dest dr force cf mf true =
      (.error .rsyncFailed,
       [.rsyncCall (mkCmd [] true src dest),
        .fileWrite (logPath src "easy-rsync_modified.txt" mf) out1,
        .fileWrite (logPath dest "easy-rsync_modified.txt" mf) out1,
        .rsyncCall (mkCmd ["-c"] true src dest)]) := by
  rw [EasyRsync.main, if_pos rfl, check_modified_ok mf hs hd h1]
  simp [verify_integrity_err cf ( runRsync_fail hs hd h2)]

/-- A malformed line in either list aborts the verify-integrity mode with
`ValueError` after the checksum invocation; no conflict log is written. -/
theorem main_verify_badlines {w : World} {src dest out1 out2 : String}
    (dr force : Bool) (cf mf : Option String)
    (hs : w.isDir src = true) (hd : w.isDir dest = true)
    (h1 : w.rsyncResult (mkCmd [] true src dest) = .ok out1)
    (h2 : w.rsyncResult (mkCmd ["-c"] true src dest) = .ok out2)
    (hci : conflictingItems (splitlines out1) (splitlines out2) = none) :
    EasyRsync.main w src dest dr force cf mf true =
      (.error .valueError,
       [.rsyncCall (mkCmd [] true src dest),
        .fileWrite (logPath src "easy-rsync_modified.txt" mf) out1,
        .fileWrite (logPath dest "easy-rsync_modified.txt" mf) out1,
        .rsyncCall (mkCmd ["-c"] true src dest)]) := by
  rw [EasyRsync.main, if_pos rfl, check_modified_ok mf hs hd h1]
  simp [verify_integrity_badlines cf hs hd h2 hci]

/-- A failing propagation run aborts the propagate mode at once: the
trace is that single invocation. -/
theorem main_noverify_failP {w : World} {src dest : String} {u : Unit}
    (dr force : Bool) (cf mf : Option String)
    (hs : w.isDir src = true) (hd : w.isDir dest = true)
    (hP : w.rsyncResult
      (mkCmd (if force then [] else ["--ignore-existing"]) dr src dest) =
      .error u) :
    EasyRsync.main w src dest dr force cf mf false =
      (.error .rsyncFailed,
       [.rsyncCall (mkCmd (if force then [] else ["--ignore-existing"])
          dr src dest)]) := by
  cases force <;>
    simp only [Bool.false_eq_true, if_false, if_true] at hP ⊢ <;>
    rw [EasyRsync.main] <;>
    simp [sync_new_files, update_all_files, runRsync_fail hs hd hP, Except.map]

/-- A failing modification-check run aborts the propagate mode after the
propagation: the trace ends at the failed invocation. -/
theorem main_noverify_fail1 {w : World} {src dest outP : String} {u : Unit}
    (dr force : Bool) (cf mf : Option String)
    (hs : w.isDir src = true) (hd : w.isDir dest = true)
    (hP : w.rsyncResult
      (mkCmd (if force then [] else ["--ignore-existing"]) dr src dest) =
      .ok outP)
    (h1 : w.rsyncResult (mkCmd [] true src dest) = .error u) :
    EasyRsync.main w src dest dr force cf mf false =
      (.error .rsyncFailed,
       [.rsyncCall (mkCmd (if force then [] else ["--ignore-existing"])
          dr src dest),
        .rsyncCall (mkCmd [] true src dest)]) := by
  cases force <;>
    simp only [Bool.false_eq_true, if_false, if_true] at hP ⊢ <;>
    rw [EasyRsync.main] <;>
    simp [sync_new_files, update_all_files, runRsync_ok hs hd hP,
      check_modified_err mf ( runRsync_fail hs hd h1), Except.map]

/-- `String.append` acts as list append on the underlying characters. -/
theorem data_append (s t : String) : (s ++ t).data = s.data ++ t.data := by
  cases s
  cases t
  rfl

/-- Every sanitized path ends in the path separator. -/
theorem sanitize_trailing (p : String) :
    ( sanitize_path p).data.getLast? = some '/' := by
  rw [ sanitize_path, data_append]
  show (p.data ++ ['/']).getLast? = some '/'
  simp

/-- Every rsync command line of a verify-integrity run is one of the two
fixed dry-run command lines. -/
theorem main_verify_calls (w : World) (src dest : String) (dr force : Bool)
    (cf mf : Option String) :
    ∀ cmd ∈ rsyncCalls (EasyRsync.main w src dest dr force cf mf true).2,
      cmd = mkCmd [] true src dest ∨ cmd = mkCmd ["-c"] true src dest := by
  intro cmd hcmd
  cases hs : w.isDir src with
  | false =>
    rw [main_bad_src hs dest dr force cf mf true] at hcmd
    simp [rsyncCalls] at hcmd
  | true =>
  cases hd : w.isDir dest with
  | false =>
    rw [main_bad_dest hs hd dr force cf mf true] at hcmd
    simp [rsyncCalls] at hcmd
  | true =>
  cases hr1 : w.rsyncResult (mkCmd [] true src dest) with
  | error u =>
    rw [main_verify_fail1 dr force cf mf hs hd hr1] at hcmd
    simp only [rsyncCalls, List.mem_singleton] at hcmd
    exact Or.inl hcmd
  | ok out1 =>
    cases hr2 : w.rsyncResult (mkCmd ["-c"] true src dest) with
    | error u =>
      rw [main_verify_fail2 dr force cf mf hs hd hr1 hr2] at hcmd
      simp only [rsyncCalls, List.mem_cons, List.not_mem_nil, or_false] at hcmd
      exact hcmd
    | ok out2 =>
      cases hci : conflictingItems (splitlines out1) (splitlines out2) with
      | none =>
        rw [main_verify_badlines dr force cf mf hs hd hr1 hr2 hci] at hcmd
        simp only [rsyncCalls, List.mem_cons, List.not_mem_nil, or_false] at hcmd
        exact hcmd
      | some items =>
        rw [main_verify_ok dr force cf mf hs hd hr1 hr2 hci] at hcmd
        simp only [rsyncCalls, List.mem_cons, List.not_mem_nil, or_false] at hcmd
        exact hcmd

/-- Every rsync command line of a propagate run is either the propagation
command or the dry-run modification-check command. -/
theorem main_noverify_calls (w : World) (src dest : String) (dr force : Bool)
    (cf mf : Option String) :
    ∀ cmd ∈ rsyncCalls (EasyRsync.main w src dest dr force cf mf false).2,
      cmd = mkCmd (if force then [] else ["--ignore-existing"]) dr src dest ∨
      cmd = mkCmd [] true src dest := by
  intro cmd hcmd
  cases hs : w.isDir src with
  | false =>
    rw [main_bad_src hs dest dr force cf mf false] at hcmd
    simp [rsyncCalls] at hcmd
  | true =>
  cases hd : w.isDir dest with
  | false =>
    rw [main_bad_dest hs hd dr force cf mf false] at hcmd
    simp [rsyncCalls] at hcmd
  | true =>
  cases hrP : w.rsyncResult
      (mkCmd (if force then [] else ["--ignore-existing"]) dr src dest) with
  | error u =>
    rw [main_noverify_failP dr force cf mf hs hd hrP] at hcmd
    simp only [rsyncCalls, List.mem_singleton] at hcmd
    exact Or.inl hcmd
  | ok outP =>
    cases hr1 : w.rsyncResult (mkCmd [] true src dest) with
    | error u =>
      rw [main_noverify_fail1 dr force cf mf hs hd hrP hr1] at hcmd
      simp only [rsyncCalls, List.mem_cons, List.not_mem_nil, or_false] at hcmd
      exact hcmd
    | ok out1 =>
      rw [main_noverify_ok dr force cf mf hs hd hrP hr1] at hcmd
      simp only [rsyncCalls, List.mem_cons, List.not_mem_nil, or_false] at hcmd
      exact hcmd

/-- Every file write of a verify-integrity run goes to one of the four
log paths (modified log or conflict log, in source or destination). -/
theorem main_verify_writes (w : World) (src dest : String) (dr force : Bool)
    (cf mf : Option String) :
    ∀ p c, Event.fileWrite p c ∈
        (EasyRsync.main w src dest dr force cf mf true).2 →
      p = logPath src "easy-rsync_modified.txt" mf ∨
      p = logPath dest "easy-rsync_modified.txt" mf ∨
      p = logPath src "easy-rsync_conflicts.txt" cf ∨
      p = logPath dest "easy-rsync_conflicts.txt" cf := by
  intro p c hmem
  cases hs : w.isDir src with
  | false =>
    rw [main_bad_src hs dest dr force cf mf true] at hmem
    simp at hmem
  | true =>
  cases hd : w.isDir dest with
  | false =>
    rw [main_bad_dest hs hd dr force cf mf true] at hmem
    simp at hmem
  | true =>
  cases hr1 : w.rsyncResult (mkCmd [] true src dest) with
  | error u =>
    rw [main_verify_fail1 dr force cf mf hs hd hr1] at hmem
    simp at hmem
  | ok out1 =>
    cases hr2 : w.rsyncResult (mkCmd ["-c"] true src dest) with
    | error u =>
      rw [main_verify_fail2 dr force cf mf hs hd hr1 hr2] at hmem
      simp at hmem
      tauto
    | ok out2 =>
      cases hci : conflictingItems (splitlines out1) (splitlines out2) with
      | none =>
        rw [main_verify_badlines dr force cf mf hs hd hr1 hr2 hci] at hmem
        simp at hmem
        tauto
      | some items =>
        rw [main_verify_ok dr force cf mf hs hd hr1 hr2 hci] at hmem
        simp at hmem
        tauto

/-- When the run aborts because rsync exited non-zero, the trace ends at
that failed invocation: no later step ran. -/
theorem main_fail_trace (w : World) (src dest : String) (dr force : Bool)
    (cf mf : Option String) (verify : Bool)
    (h : (EasyRsync.main w src dest dr force cf mf verify).1 =
      .error .rsyncFailed) :
    ∃ pre c,
      (EasyRsync.main w src dest dr force cf mf verify).2 =
        pre ++ [.rsyncCall c] ∧
      w.rsyncResult c = .error () := by
  cases hs : w.isDir src with
  | false =>
    rw [main_bad_src hs dest dr force cf mf verify] at h
    exact absurd h (by simp)
  | true =>
  cases hd : w.isDir dest with
  | false =>
    rw [main_bad_dest hs hd dr force cf mf verify] at h
    exact absurd h (by simp)
  | true =>
  cases verify with
  | true =>
    cases hr1 : w.rsyncResult (mkCmd [] true src dest) with
    | error u =>
      cases u
      exact ⟨[], mkCmd [] true src dest,
        by rw [main_verify_fail1 dr force cf mf hs hd hr1]; rfl, hr1⟩
    | ok out1 =>
      cases hr2 : w.rsyncResult (mkCmd ["-c"] true src dest) with
      | error u =>
        cases u
        exact ⟨[.rsyncCall (mkCmd [] true src dest),
          .fileWrite (logPath src "easy-rsync_modified.txt" mf) out1,
          .fileWrite (logPath dest "easy-rsync_modified.txt" mf) out1],
          mkCmd ["-c"] true src dest,
          by rw [main_verify_fail2 dr force cf mf hs hd hr1 hr2]; rfl, hr2⟩
      | ok out2 =>
        cases hci : conflictingItems (splitlines out1) (splitlines out2) with
        | none =>
          rw [main_verify_badlines dr force cf mf hs hd hr1 hr2 hci] at h
          exact absurd h (by simp)
        | some items =>
          rw [main_verify_ok dr force cf mf hs hd hr1 hr2 hci] at h
          exact absurd h (by simp)
  | false =>
    cases hrP : w.rsyncResult
        (mkCmd (if force then [] else ["--ignore-existing"]) dr src dest) with
    | error u =>
      cases u
      exact ⟨[], mkCmd (if force then [] else ["--ignore-existing"]) dr src dest,
        by rw [main_noverify_failP dr force cf mf hs hd hrP]; rfl, hrP⟩
    | ok outP =>
      cases hr1 : w.rsyncResult (mkCmd [] true src dest) with
      | error u =>
        cases u
        exact ⟨[.rsyncCall
            (mkCmd (if force then [] else ["--ignore-existing"]) dr src dest)],
          mkCmd [] true src dest,
          by rw [main_noverify_fail1 dr force cf mf hs hd hrP hr1]; rfl, hr1⟩
      | ok out1 =>
        rw [main_noverify_ok dr force cf mf hs hd hrP hr1] at h
        exact absurd h (by simp)

/-! ## The claims -/

/-- C3: for every output line of the form `"(code) path"`, the Output
Classifier returns exactly the substring after the first occurrence of
the two-character sequence `") "`; the particular instance
`"(>f+++++++++ ) dir/file.txt" ↦ "dir/file.txt"` is the witness below. -/
theorem strip_after_first_delim (s : String) (i : Nat)
    (h1 : isPreOf [')', ' '] (s.data.drop i) = true)
    (h2 : ∀ j, j < i → isPreOf [')', ' '] (s.data.drop j) = false) :
    strip_action_code s = some (String.mk (s.data.drop (i + 2))) := by
  rw [ strip_action_code, findSub_eq_of_first [')', ' '] s.data i h1 h2]
  rfl

/-- C3 witness: on the example line the delimiter first occurs at
character index 13, and stripping yields `"dir/file.txt"`. -/
theorem strip_after_first_delim_witness :
    strip_action_code "(>f+++++++++ ) dir/file.txt" = some "dir/file.txt" :=
  strip_after_first_delim "(>f+++++++++ ) dir/file.txt" 13 (by decide)
    (by decide)

/-- C4 counterexample: the claimed truncation does not exist — for every
line `"(<code>) <path>"` whose action code (as produced by the external
tool) contains no `')'` character, stripping returns the complete path,
even when the path contains the literal sequence `") "`. -/
theorem no_truncation_exists :
    ¬ ∃ code path : List Char,
      (∀ ch ∈ code, ch ≠ ')') ∧
      hasSub path [')', ' '] = true ∧
      strip_action_code (String.mk ('(' :: code ++ [')', ' '] ++ path)) ≠
        some (String.mk path) := by
  rintro ⟨code, path, h1, _, h3⟩
  exact h3 ( strip_full_line code path h1)

/-- C4 (amended): a line whose path component contains the literal
sequence `") "` is NOT truncated: `str.index` finds the first occurrence
of `") "`, which — the action code containing no `')'` — is the real
delimiter, so the full path is recovered. -/
theorem path_with_delim_recovered (code path : List Char)
    (h : ∀ ch ∈ code, ch ≠ ')') (_hp : hasSub path [')', ' '] = true) :
    strip_action_code (String.mk ('(' :: code ++ [')', ' '] ++ path)) =
      some (String.mk path) :=
  strip_full_line code path h

/-- C4 witness: the line `"(>f+++++++++ ) a) b.txt"`, whose path
`"a) b.txt"` contains `") "`, strips to the full path. -/
theorem path_with_delim_recovered_witness :
    strip_action_code
      (String.mk
        ('(' :: ">f+++++++++ ".data ++ [')', ' '] ++ "a) b.txt".data)) =
      some (String.mk "a) b.txt".data) :=
  path_with_delim_recovered ">f+++++++++ ".data "a) b.txt".data (by decide)
    (by decide)

/-- C1: a line of the checksum-diff output is in the conflict report iff
the path obtained by stripping its action-code prefix is not among the
stripped paths of the modified list; in particular a changed file absent
from the modified list is reported, and one present there is excluded. -/
theorem integrity_conflict_iff (modified conflicts sm items : List String)
    (hm : stripAll modified = some sm)
    (hi : conflictingItems modified conflicts = some items)
    (c p : String) (hc : c ∈ conflicts) (hp : strip_action_code c = some p) :
    c ∈ items ↔ p ∉ sm := by
  rw [conflictingItems, hm] at hi
  rw [filterStripped_mem_iff sm conflicts items c p hi hp]
  simp [hc]

/-- C1 witness: with modified list `["(x) a.txt"]` and checksum diff
`["(y) a.txt", "(y) b.txt"]`, the changed-but-unmodified `b.txt` line is
reported and the modified `a.txt` line is excluded. -/
theorem integrity_conflict_iff_witness :
    ("(y) b.txt" ∈ ["(y) b.txt"] ↔ "b.txt" ∉ ["a.txt"]) :=
  integrity_conflict_iff ["(x) a.txt"] ["(y) a.txt", "(y) b.txt"]
    ["a.txt"] ["(y) b.txt"] (by decide) (by decide) "(y) b.txt" "b.txt"
    (by decide) (by decide)

/-- C9: a string without the delimiter `") "` makes the classifier fail
(`ValueError`) instead of returning a path; consequently the Integrity
Verifier aborts on any malformed line in either the checksum-diff output
or the modified list — nothing is skipped or passed through, and no
conflict log is written. -/
theorem strip_fails_and_verify_aborts (w : World) (src dest : String)
    (modified : List String) (cf : Option String) (out : String)
    (hs : w.isDir src = true) (hd : w.isDir dest = true)
    (hr : w.rsyncResult (mkCmd ["-c"] true src dest) = .ok out) :
    (∀ s : String, (∀ j, isPreOf [')', ' '] (s.data.drop j) = false) →
      strip_action_code s = none) ∧
    (((∃ m ∈ modified, strip_action_code m = none) ∨
      (∃ c ∈ splitlines out, strip_action_code c = none)) →
      verify_integrity w src dest modified cf =
        (.error .valueError, [.rsyncCall (mkCmd ["-c"] true src dest)])) := by
  constructor
  · intro s h
    rw [ strip_action_code, findSub_none_of_no_occurrence [')', ' '] s.data h]
    rfl
  · intro hbad
    apply verify_integrity_badlines cf hs hd hr
    rcases hbad with ⟨m, hm, hnone⟩ | ⟨c, hc, hnone⟩
    · rw [conflictingItems, stripAll_none_of_mem hm hnone]
    · rw [conflictingItems]
      cases hsa : stripAll modified with
      | none => rfl
      | some sm =>
        show filterStripped sm (splitlines out) = none
        rw [filterStripped_none_of_mem sm hc hnone]

/-- C9 witness: a malformed modified-list line makes a concrete
verification pass abort with `ValueError` and write nothing. -/
theorem strip_fails_and_verify_aborts_witness :
    verify_integrity wGood "s" "d" ["garbage"] none =
      (.error .valueError, [.rsyncCall (mkCmd ["-c"] true "s" "d")]) :=
  (strip_fails_and_verify_aborts wGood "s" "d" ["garbage"] none "(x) a.txt\n"
    rfl rfl rfl).2 (Or.inl ⟨"garbage", by decide, by decide⟩)

/-- C2: the run is a strict two-step sequence fixed only by the initial
mode: with integrity verification requested, a plain dry-run modification
check and then a checksum (`-c`) dry-run verification consuming the
check's result; otherwise a propagation (extra flag `--ignore-existing`
unless force is set, honoring the dry-run flag) and then the modification
check; on success main returns 0. -/
theorem main_two_step (w : World) (src dest : String) (dr force : Bool)
    (cf mf : Option String) (verify : Bool) (ret : Int)
    (h : (EasyRsync.main w src dest dr force cf mf verify).1 = .ok ret) :
    ret = 0 ∧
    rsyncCalls (EasyRsync.main w src dest dr force cf mf verify).2 =
      (if verify then
        [mkCmd [] true src dest, mkCmd ["-c"] true src dest]
      else
        [mkCmd (if force then [] else ["--ignore-existing"]) dr src dest,
         mkCmd [] true src dest]) ∧
    (verify = true → ∃ out1,
      w.rsyncResult (mkCmd [] true src dest) = .ok out1 ∧
      (check_modified w src dest mf).1 = .ok (splitlines out1) ∧
      (EasyRsync.main w src dest dr force cf mf verify).2 =
        (check_modified w src dest mf).2 ++
        (verify_integrity w src dest (splitlines out1) cf).2) := by
  cases hs : w.isDir src with
  | false =>
    rw [main_bad_src hs dest dr force cf mf verify] at h
    exact absurd h (by simp)
  | true =>
  cases hd : w.isDir dest with
  | false =>
    rw [main_bad_dest hs hd dr force cf mf verify] at h
    exact absurd h (by simp)
  | true =>
  cases verify with
  | true =>
    cases hr1 : w.rsyncResult (mkCmd [] true src dest) with
    | error u =>
      rw [main_verify_fail1 dr force cf mf hs hd hr1] at h
      exact absurd h (by simp)
    | ok out1 =>
      cases hr2 : w.rsyncResult (mkCmd ["-c"] true src dest) with
      | error u =>
        rw [main_verify_fail2 dr force cf mf hs hd hr1 hr2] at h
        exact absurd h (by simp)
      | ok out2 =>
        cases hci : conflictingItems (splitlines out1) (splitlines out2) with
        | none =>
          rw [main_verify_badlines dr force cf mf hs hd hr1 hr2 hci] at h
          exact absurd h (by simp)
        | some items =>
          rw [main_verify_ok dr force cf mf hs hd hr1 hr2 hci] at h
          refine ⟨(Except.ok.inj h).symm, ?_, ?_⟩
          · rw [main_verify_ok dr force cf mf hs hd hr1 hr2 hci]
            simp [rsyncCalls]
          · intro _
            refine ⟨out1, rfl, ?_, ?_⟩
            · rw [check_modified_ok mf hs hd hr1]
            · rw [main_verify_ok dr force cf mf hs hd hr1 hr2 hci,
                check_modified_ok mf hs hd hr1,
                verify_integrity_ok cf hs hd hr2 hci]
              rfl
  | false =>
    cases hrP : w.rsyncResult
        (mkCmd (if force then [] else ["--ignore-existing"]) dr src dest) with
    | error u =>
      rw [main_noverify_failP dr force cf mf hs hd hrP] at h
      exact absurd h (by simp)
    | ok outP =>
      cases hr1 : w.rsyncResult (mkCmd [] true src dest) with
      | error u =>
        rw [main_noverify_fail1 dr force cf mf hs hd hrP hr1] at h
        exact absurd h (by simp)
      | ok out1 =>
        rw [main_noverify_ok dr force cf mf hs hd hrP hr1] at h
        refine ⟨(Except.ok.inj h).symm, ?_, ?_⟩
        · rw [main_noverify_ok dr force cf mf hs hd hrP hr1]
          simp [rsyncCalls]
        · intro hv
          exact absurd hv (by simp)

/-- C2 witness: a concrete fully successful verify-integrity run. -/
theorem main_two_step_witness :
    (0 : Int) = 0 ∧
    rsyncCalls (EasyRsync.main wGood "s" "d" false false none none true).2 =
      (if true then
        [mkCmd [] true "s" "d", mkCmd ["-c"] true "s" "d"]
      else
        [mkCmd (if false then [] else ["--ignore-existing"]) false "s" "d",
         mkCmd [] true "s" "d"]) ∧
    (true = true → ∃ out1,
      wGood.rsyncResult (mkCmd [] true "s" "d") = .ok out1 ∧
      (check_modified wGood "s" "d" none).1 = .ok (splitlines out1) ∧
      (EasyRsync.main wGood "s" "d" false false none none true).2 =
        (check_modified wGood "s" "d" none).2 ++
        (verify_integrity wGood "s" "d" (splitlines out1) none).2) :=
  main_two_step wGood "s" "d" false false none none true 0 rfl

/-- C5: the Modification Checker and the Integrity Verifier each write
their list content to a file in the source directory and a file in the
destination directory; with an explicit override path, that same single
path is written twice in the one step, with the same content each time. -/
theorem logs_both_dirs_or_override (w : World) (src dest f : String)
    {out1 out2 : String} {modified items : List String}
    (hs : w.isDir src = true) (hd : w.isDir dest = true)
    (h1 : w.rsyncResult (mkCmd [] true src dest) = .ok out1)
    (h2 : w.rsyncResult (mkCmd ["-c"] true src dest) = .ok out2)
    (hci : conflictingItems modified (splitlines out2) = some items) :
    writeEvents (check_modified w src dest none).2 =
      [(src ++ "/" ++ "easy-rsync_modified.txt", out1),
       (dest ++ "/" ++ "easy-rsync_modified.txt", out1)] ∧
    writeEvents (check_modified w src dest (some f)).2 =
      [(f, out1), (f, out1)] ∧
    writeEvents (verify_integrity w src dest modified none).2 =
      [(src ++ "/" ++ "easy-rsync_conflicts.txt",
        String.intercalate "\n" items),
       (dest ++ "/" ++ "easy-rsync_conflicts.txt",
        String.intercalate "\n" items)] ∧
    writeEvents (verify_integrity w src dest modified (some f)).2 =
      [(f, String.intercalate "\n" items),
       (f, String.intercalate "\n" items)] := by
  refine ⟨?_, ?_, ?_, ?_⟩
  · rw [check_modified_ok none hs hd h1]; rfl
  · rw [check_modified_ok (some f) hs hd h1]; rfl
  · rw [verify_integrity_ok none hs hd h2 hci]; rfl
  · rw [verify_integrity_ok (some f) hs hd h2 hci]; rfl

/-- C5 witness: a concrete checker and verifier run, with and without an
override path. -/
theorem logs_both_dirs_or_override_witness :
    writeEvents (check_modified wGood "s" "d" none).2 =
      [("s" ++ "/" ++ "easy-rsync_modified.txt", "(x) a.txt\n"),
       ("d" ++ "/" ++ "easy-rsync_modified.txt", "(x) a.txt\n")] ∧
    writeEvents (check_modified wGood "s" "d" (some "log.txt")).2 =
      [("log.txt", "(x) a.txt\n"), ("log.txt", "(x) a.txt\n")] ∧
    writeEvents (verify_integrity wGood "s" "d" [] none).2 =
      [("s" ++ "/" ++ "easy-rsync_conflicts.txt",
        String.intercalate "\n" ["(x) a.txt"]),
       ("d" ++ "/" ++ "easy-rsync_conflicts.txt",
        String.intercalate "\n" ["(x) a.txt"])] ∧
    writeEvents (verify_integrity wGood "s" "d" [] (some "log.txt")).2 =
      [("log.txt", String.intercalate "\n" ["(x) a.txt"]),
       ("log.txt", String.intercalate "\n" ["(x) a.txt"])] :=
  logs_both_dirs_or_override wGood "s" "d" "log.txt" rfl rfl rfl rfl
    (by decide)

/-- C6: with explicit override paths supplied, exactly those paths
receive the output: every file write of the checker goes to the modified
override and every file write of the verifier goes to the conflict
override, so no default-named log file is created in either directory
and no other file is written. -/
theorem override_exact (w : World) (src dest mf cf : String)
    {out1 out2 : String} {modified items : List String}
    (hs : w.isDir src = true) (hd : w.isDir dest = true)
    (h1 : w.rsyncResult (mkCmd [] true src dest) = .ok out1)
    (h2 : w.rsyncResult (mkCmd ["-c"] true src dest) = .ok out2)
    (hci : conflictingItems modified (splitlines out2) = some items) :
    writeEvents (check_modified w src dest (some mf)).2 =
      [(mf, out1), (mf, out1)] ∧
    writeEvents (verify_integrity w src dest modified (some cf)).2 =
      [(cf, String.intercalate "\n" items),
       (cf, String.intercalate "\n" items)] ∧
    (∀ p c, Event.fileWrite p c ∈ (check_modified w src dest (some mf)).2 →
      p = mf) ∧
    (∀ p c, Event.fileWrite p c ∈
        (verify_integrity w src dest modified (some cf)).2 → p = cf) := by
  refine ⟨?_, ?_, ?_, ?_⟩
  · rw [check_modified_ok (some mf) hs hd h1]; rfl
  · rw [verify_integrity_ok (some cf) hs hd h2 hci]; rfl
  · intro p c hmem
    rw [check_modified_ok (some mf) hs hd h1] at hmem
    simp at hmem
    tauto
  · intro p c hmem
    rw [verify_integrity_ok (some cf) hs hd h2 hci] at hmem
    simp at hmem
    tauto

/-- C6 witness: a concrete checker and verifier run with override paths
`m.txt` and `c.txt`. -/
theorem override_exact_witness :
    writeEvents (check_modified wGood "s" "d" (some "m.txt")).2 =
      [("m.txt", "(x) a.txt\n"), ("m.txt", "(x) a.txt\n")] ∧
    writeEvents (verify_integrity wGood "s" "d" [] (some "c.txt")).2 =
      [("c.txt", String.intercalate "\n" ["(x) a.txt"]),
       ("c.txt", String.intercalate "\n" ["(x) a.txt"])] ∧
    (∀ p c, Event.fileWrite p c ∈ (check_modified wGood "s" "d" (some "m.txt")).2 →
      p = "m.txt") ∧
    (∀ p c, Event.fileWrite p c ∈
        (verify_integrity wGood "s" "d" [] (some "c.txt")).2 → p = "c.txt") :=
  override_exact wGood "s" "d" "m.txt" "c.txt" rfl rfl rfl rfl (by decide)

/-- C8: a source or destination path that is not a directory aborts the
run at once with an error naming the path, before any rsync invocation
(the trace is empty), and the process result is the raised error rather
than a return value. -/
theorem invalid_dir_aborts (w : World) (src dest : String)
    (dr force verify : Bool) (cf mf : Option String) :
    (w.isDir src = false →
      EasyRsync.main w src dest dr force cf mf verify =
        (.error (.notADirectory src), [])) ∧
    (w.isDir src = true → w.isDir dest = false →
      EasyRsync.main w src dest dr force cf mf verify =
        (.error (.notADirectory dest), [])) :=
  ⟨fun hs => main_bad_src hs dest dr force cf mf verify,
   fun hs hd => main_bad_dest hs hd dr force cf mf verify⟩

/-- C8 witness: in a world with no directories, a concrete run aborts
with an empty trace. -/
theorem invalid_dir_aborts_witness :
    EasyRsync.main wNoDir "s" "d" false false none none false =
      (.error (.notADirectory "s"), []) :=
  (invalid_dir_aborts wNoDir "s" "d" false false false none none).1 rfl

/-- The dry-run flag is present in every dry-run command line. -/
theorem dry_run_mem (args : List String) (src dest : String) :
    "--dry-run" ∈ mkCmd args true src dest := by
  rw [mkCmd]
  simp [RSYNC_FLAGS]

/-- C7: every rsync invocation of a run receives the source and the
destination normalized with a trailing path separator (as its final two
arguments), and a non-zero rsync exit aborts the whole run: the trace
ends at the failed invocation, with no retry and no subsequent step. -/
theorem rsync_normalized_and_fatal (w : World) (src dest : String)
    (dr force verify : Bool) (cf mf : Option String) :
    (∀ cmd ∈ rsyncCalls (EasyRsync.main w src dest dr force cf mf verify).2,
      ∃ rest, cmd = rest ++ [ sanitize_path src, sanitize_path dest] ∧
        ( sanitize_path src).data.getLast? = some '/' ∧
        ( sanitize_path dest).data.getLast? = some '/') ∧
    ((EasyRsync.main w src dest dr force cf mf verify).1 =
        .error .rsyncFailed →
      ∃ pre c,
        (EasyRsync.main w src dest dr force cf mf verify).2 =
          pre ++ [.rsyncCall c] ∧
        w.rsyncResult c = .error ()) := by
  constructor
  · intro cmd hcmd
    have hshape : ∃ args dru, cmd = mkCmd args dru src dest := by
      cases verify with
      | true =>
        rcases main_verify_calls w src dest dr force cf mf cmd hcmd with rfl | rfl
        · exact ⟨[], true, rfl⟩
        · exact ⟨["-c"], true, rfl⟩
      | false =>
        rcases main_noverify_calls w src dest dr force cf mf cmd hcmd with rfl | rfl
        · exact ⟨if force then [] else ["--ignore-existing"], dr, rfl⟩
        · exact ⟨[], true, rfl⟩
    rcases hshape with ⟨args, dru, rfl⟩
    exact ⟨["rsync"] ++ RSYNC_FLAGS ++ args ++
        (if dru then ["--dry-run"] else []),
      rfl, sanitize_trailing src, sanitize_trailing dest⟩
  · exact main_fail_trace w src dest dr force cf mf verify

/-- C7 witness: a concrete run against an rsync that always fails. -/
theorem rsync_normalized_and_fatal_witness :
    (∀ cmd ∈ rsyncCalls
        (EasyRsync.main wFail "s" "d" false false none none false).2,
      ∃ rest, cmd = rest ++ [ sanitize_path "s", sanitize_path "d"] ∧
        ( sanitize_path "s").data.getLast? = some '/' ∧
        ( sanitize_path "d").data.getLast? = some '/') ∧
    ((EasyRsync.main wFail "s" "d" false false none none false).1 =
        .error .rsyncFailed →
      ∃ pre c,
        (EasyRsync.main wFail "s" "d" false false none none false).2 =
          pre ++ [.rsyncCall c] ∧
        wFail.rsyncResult c = .error ()) :=
  rsync_normalized_and_fatal wFail "s" "d" false false false none none

/-- C10: with verify-integrity selected, the dry-run and force flags are
inert (the run is literally the same function of the world), every rsync
invocation carries `--dry-run`, and the only file writes of the run are
to the modified-log and conflict-log paths. -/
theorem verify_mode_inert_and_dry (w : World) (src dest : String)
    (dr dr' force force' : Bool) (cf mf : Option String) :
    EasyRsync.main w src dest dr force cf mf true =
      EasyRsync.main w src dest dr' force' cf mf true ∧
    (∀ cmd ∈ rsyncCalls (EasyRsync.main w src dest dr force cf mf true).2,
      "--dry-run" ∈ cmd) ∧
    (∀ p c, Event.fileWrite p c ∈
        (EasyRsync.main w src dest dr force cf mf true).2 →
      p = logPath src "easy-rsync_modified.txt" mf ∨
      p = logPath dest "easy-rsync_modified.txt" mf ∨
      p = logPath src "easy-rsync_conflicts.txt" cf ∨
      p = logPath dest "easy-rsync_conflicts.txt" cf) := by
  refine ⟨rfl, ?_, main_verify_writes w src dest dr force cf mf⟩
  intro cmd hcmd
  rcases main_verify_calls w src dest dr force cf mf cmd hcmd with rfl | rfl
  · exact dry_run_mem [] src dest
  · exact dry_run_mem ["-c"] src dest

/-- C10 witness: a concrete verify-integrity run with differing dry-run
and force flags. -/
theorem verify_mode_inert_and_dry_witness :
    EasyRsync.main wGood "s" "d" false false none none true =
      EasyRsync.main wGood "s" "d" true true none none true ∧
    (∀ cmd ∈ rsyncCalls (EasyRsync.main wGood "s" "d" false false none none true).2,
      "--dry-run" ∈ cmd) ∧
    (∀ p c, Event.fileWrite p c ∈
        (EasyRsync.main wGood "s" "d" false false none none true).2 →
      p = logPath "s" "easy-rsync_modified.txt" none ∨
      p = logPath "d" "easy-rsync_modified.txt" none ∨
      p = logPath "s" "easy-rsync_conflicts.txt" none ∨
      p = logPath "d" "easy-rsync_conflicts.txt" none) :=
  verify_mode_inert_and_dry wGood "s" "d" false true false true none none
